import Mathlib

/-
Verification of the pipeline orchestrator in src/main.py.

The orchestrator is a single Hydra entry point `go(config)`.  It sets two
process-wide environment variables, computes the active step list from the
`main.steps` directive, opens a temporary directory with a `with` block, and
then runs a fixed sequence of `if <name> in active_steps:` blocks, one per
pipeline stage, each invoking an external process (subprocess.run with
check=True) or the mlflow runner.  We embed this shallowly: configuration is a
record, the outside world (working directories, the fresh temporary directory,
and the exit status each external process would return) is a record, and `go`
produces the list of stages that executed, a trace of observable events, the
final outcome, and the post-invocation file state.
-/

/-- A scalar configuration value as read from the YAML config.  Integer values
keep their integer identity (Python `str` on them is decimal rendering); other
numeric literals such as floats are carried by their literal text, which is
what Python `str` produces for them. -/
inductive Val where
  | vstr : String → Val
  | vint : Int → Val
  | vnum : String → Val
deriving Repr, DecidableEq

/-- Python `str(...)` applied to a configuration scalar. -/
def pyStr : Val → String
  | .vstr s => s
  | .vint n => toString n
  | .vnum s => s

/-- A JSON value, for the `modeling.random_forest` parameter object that
`go` serializes with `json.dump`. -/
inductive JVal where
  | jstr : String → JVal
  | jint : Int → JVal
  | jnum : String → JVal
  | jbool : Bool → JVal
deriving Repr, DecidableEq

/-- A JSON object, as an ordered association list (Python dict items order). -/
abbrev JObj := List (String × JVal)

/-- The `main` section of the configuration. -/
structure MainConfig where
  project_name : String
  experiment_name : String
  steps : String
  components_repository : String
deriving Repr, DecidableEq

/-- The `etl` section of the configuration. -/
structure EtlConfig where
  sample : String
  output_artifact : String
  output_type : String
  output_description : String
  min_price : Val
  max_price : Val
deriving Repr, DecidableEq

/-- The `data_check` section of the configuration. -/
structure DataCheckConfig where
  kl_threshold : Val
deriving Repr, DecidableEq

/-- The `modeling` section of the configuration. -/
structure ModelingConfig where
  test_size : Val
  random_seed : Val
  stratify_by : String
  val_size : Val
  max_tfidf_features : Val
  output_artifact : String
  random_forest : JObj
deriving Repr, DecidableEq

/-- The nested configuration object Hydra hands to `go`. -/
structure Config where
  main : MainConfig
  etl : EtlConfig
  data_check : DataCheckConfig
  modeling : ModelingConfig
deriving Repr, DecidableEq

/-- An absolute filesystem path, as its list of components. -/
abbrev FsPath := List String

/-- Render an absolute path the way the os.path functions hand it to a
command line. -/
def pathStr (p : FsPath) : String := "/" ++ String.intercalate "/" p

/-- The observable actions `go` performs, in program order:
setting an environment variable (lines 30-31), starting a wandb run
(line 43), logging an artifact built from a local file (lines 44-56),
writing a JSON file (lines 105-107), running an external process with an
argument vector and a working directory (subprocess.run with check=True),
and delegating a component to the mlflow runner. -/
inductive Event where
  | setEnv : String → String → Event
  | wandbInit : String → Event
  | logArtifact : String → String → String → FsPath → Event
  | writeFile : FsPath → JObj → Event
  | runProc : List String → FsPath → Event
  | mlflowRun : String → String → List (String × Val) → Event
deriving Repr, DecidableEq

/-- How one invocation of `go` ends: normal return, or propagation of the
error raised for the first stage whose external process reported failure
(subprocess.CalledProcessError from check=True, or an mlflow run failure). -/
inductive Outcome where
  | ok : Outcome
  | stageFailure : String → Int → Outcome
deriving Repr, DecidableEq

/-- The environment of one orchestrator invocation: the process working
directory while `go` runs (Hydra's run directory — `go` never changes it),
the original working directory reported by `get_original_cwd()`, the fresh
directory created by `tempfile.TemporaryDirectory()`, and the exit status
each stage's external process or runner invocation would report. -/
structure World where
  cwd : FsPath
  original_cwd : FsPath
  tmp_dir : FsPath
  exit : String → Int

/-- Python `s.split(",")` on the character list: splitting on every
occurrence of the separator, keeping empty pieces, `[""]` on the empty
string. -/
def splitOnChar (sep : Char) : List Char → List (List Char)
  | [] => [[]]
  | c :: rest =>
    let r := splitOnChar sep rest
    if c = sep then [] :: r
    else
      match r with
      | t :: ts => (c :: t) :: ts
      | [] => [[c]]

/-- Python `s.split(",")` (src/main.py line 35): no trimming, no filtering. -/
def pySplitComma (s : String) : List String :=
  (splitOnChar (Char.ofNat 44) s.data).map String.mk

/-- The step registry `_steps` (src/main.py lines 12-22).  The entry
`test_regression_model` is commented out in the source so that it is not run
by mistake. -/
def _steps : List String :=
  ["download", "basic_cleaning", "data_check", "data_split", "train_random_forest"]

/-- Line 35: `active_steps = steps_par.split(",") if steps_par != "all" else _steps`. -/
def active_steps (steps_par : String) : List String :=
  if steps_par ≠ "all" then pySplitComma steps_par else _steps

/-- The sequence of `if <name> in active_steps:` blocks in the body of `go`,
in source order (lines 42, 58, 74, 89, 102, 132). -/
def ifChain : List String :=
  ["download", "basic_cleaning", "data_check", "data_split", "train_random_forest",
   "test_regression_model"]

/-- The stages whose block invokes an external process or the mlflow runner
(every block except `download`, whose body is in-process wandb API calls). -/
def procStages : List String :=
  ["basic_cleaning", "data_check", "data_split", "train_random_forest",
   "test_regression_model"]

/-- Argument vector of the `basic_cleaning` block (src/main.py lines 59-68). -/
def basic_cleaning_args (c : Config) : List String :=
  ["python", "run.py",
   "--input_artifact", "sample.csv:latest",
   "--output_artifact", c.etl.output_artifact,
   "--output_type", c.etl.output_type,
   "--output_description", c.etl.output_description,
   "--min_price", pyStr c.etl.min_price,
   "--max_price", pyStr c.etl.max_price]

/-- Argument vector of the `data_check` block (src/main.py lines 75-83). -/
def data_check_args (c : Config) : List String :=
  ["pytest", ".", "-vv",
   "--csv", "clean_sample:latest",
   "--ref", "clean_sample:reference",
   "--kl_threshold", pyStr c.data_check.kl_threshold,
   "--min_price", pyStr c.etl.min_price,
   "--max_price", pyStr c.etl.max_price]

/-- Argument vector of the `train_random_forest` block (lines 111-121); the
`--rf_config` value is the absolute path of the JSON file written just
before. -/
def train_random_forest_args (c : Config) (rf_config : FsPath) : List String :=
  ["python", "run.py",
   "--trainval_artifact", "trainval_data:latest",
   "--val_size", pyStr c.modeling.val_size,
   "--random_seed", pyStr c.modeling.random_seed,
   "--stratify_by", c.modeling.stratify_by,
   "--rf_config", pathStr rf_config,
   "--max_tfidf_features", pyStr c.modeling.max_tfidf_features,
   "--output_artifact", c.modeling.output_artifact]

/-- The body of one `if <name> in active_steps:` block: the events it emits
and the exit status of its external invocation (0 for `download`, whose body
makes only in-process wandb calls and has no external process). -/
def stageBody (w : World) (c : Config) (s : String) : List Event × Int :=
  if s = "download" then
    ([Event.wandbInit "download_data",
      Event.logArtifact c.etl.sample "raw_data" "Raw data from local file"
        (w.original_cwd ++ ["data", c.etl.sample])], 0)
  else if s = "basic_cleaning" then
    ([Event.runProc (basic_cleaning_args c) (w.original_cwd ++ ["src", "basic_cleaning"])],
     w.exit "basic_cleaning")
  else if s = "data_check" then
    ([Event.runProc (data_check_args c) (w.original_cwd ++ ["src", "data_check"])],
     w.exit "data_check")
  else if s = "data_split" then
    ([Event.mlflowRun (c.main.components_repository ++ "/train_val_test_split") "main"
        [("input", Val.vstr "clean_sample:latest"),
         ("test_size", c.modeling.test_size),
         ("random_seed", c.modeling.random_seed),
         ("stratify_by", Val.vstr c.modeling.stratify_by)]],
     w.exit "data_split")
  else if s = "train_random_forest" then
    ([Event.writeFile (w.cwd ++ ["rf_config.json"]) c.modeling.random_forest,
      Event.runProc (train_random_forest_args c (w.cwd ++ ["rf_config.json"]))
        (w.original_cwd ++ ["src", "train_random_forest"])],
     w.exit "train_random_forest")
  else if s = "test_regression_model" then
    ([Event.mlflowRun (c.main.components_repository ++ "/test_regression_model") "main"
        [("mlflow_model", Val.vstr "random_forest_export:prod"),
         ("test_dataset", Val.vstr "test_data:latest")]],
     w.exit "test_regression_model")
  else ([], 0)

/-- Result of running the chain of `if` blocks: which stages entered their
block, the events emitted, and how the chain ended. -/
structure ChainResult where
  executed : List String
  events : List Event
  outcome : Outcome
deriving Repr, DecidableEq

/-- Run the `if` blocks for the given stage names in order.  A stage runs
exactly when its name is a member of `active`; a non-zero status from its
external invocation raises, so no later block is reached. -/
def runChain (w : World) (c : Config) (active : List String) :
    List String → ChainResult
  | [] => ⟨[], [], Outcome.ok⟩
  | s :: rest =>
    if s ∈ active then
      let b := stageBody w c s
      if b.2 = 0 then
        let r := runChain w c active rest
        ⟨s :: r.executed, b.1 ++ r.events, r.outcome⟩
      else ⟨[s], b.1, Outcome.stageFailure s b.2⟩
    else runChain w c active rest

/-- The files created during the run, read off the event trace. -/
def writtenFiles : List Event → List (FsPath × JObj)
  | [] => []
  | Event.writeFile p o :: rest => (p, o) :: writtenFiles rest
  | _ :: rest => writtenFiles rest

/-- Whether path `p` is strictly inside directory `dir`. -/
def insideDir (dir p : FsPath) : Bool := dir.isPrefixOf p && dir != p

/-- What one invocation of `go` leaves behind: the stages that executed, the
event trace, the outcome, whether the temporary directory still exists, and
the created files that still exist after the invocation returns. -/
structure RunResult where
  executed : List String
  trace : List Event
  outcome : Outcome
  tmpExists : Bool
  files : List (FsPath × JObj)
deriving Repr, DecidableEq

/-- The orchestrator `go` (src/main.py lines 27-146).  It sets the two wandb
environment variables, computes `active_steps`, and runs the `if` chain
inside `with tempfile.TemporaryDirectory() as tmp_dir:`.  The context manager
removes `tmp_dir` and everything under it on every exit path — normal return
or a propagating stage failure — which is embedded directly: after `go`
returns, `tmp_dir` is gone and only files written outside it remain. -/
def go (c : Config) (w : World) : RunResult :=
  let envEvents := [Event.setEnv "WANDB_PROJECT" c.main.project_name,
                    Event.setEnv "WANDB_RUN_GROUP" c.main.experiment_name]
  let active := active_steps c.main.steps
  let r := runChain w c active ifChain
  { executed := r.executed,
    trace := envEvents ++ r.events,
    outcome := r.outcome,
    tmpExists := false,
    files := (writtenFiles r.events).filter (fun f => !(insideDir w.tmp_dir f.1)) }

/-! Helper lemmas about the chain of `if` blocks. -/

theorem runChain_executed_sublist (w : World) (c : Config) (a : List String) :
    ∀ L : List String, (runChain w c a L).executed.Sublist L := by
  intro L
  induction L with
  | nil => simp [runChain]
  | cons s rest ih =>
    by_cases hs : s ∈ a
    · by_cases hz : (stageBody w c s).2 = 0
      · simpa [runChain, hs, hz] using ih.cons₂ s
      · simp [runChain, hs, hz]
    · simpa [runChain, hs] using ih.cons s

theorem runChain_executed_active (w : World) (c : Config) (a : List String) :
    ∀ L : List String, ∀ s, s ∈ (runChain w c a L).executed → s ∈ a := by
  intro L
  induction L with
  | nil => simp [runChain]
  | cons t rest ih =>
    intro s hmem
    by_cases ht : t ∈ a
    · by_cases hz : (stageBody w c t).2 = 0
      · simp [runChain, ht, hz] at hmem
        rcases hmem with rfl | hmem
        · exact ht
        · exact ih s hmem
      · simp [runChain, ht, hz] at hmem
        subst hmem
        exact ht
    · simp [runChain, ht] at hmem
      exact ih s hmem

theorem runChain_fail_stops (w : World) (c : Config) (a : List String) (s : String)
    (hs : s ∈ a) (hz : (stageBody w c s).2 ≠ 0) :
    ∀ L : List String, s ∈ L →
      (runChain w c a L).executed.Sublist (L.takeWhile (fun t => t != s) ++ [s]) := by
  intro L
  induction L with
  | nil => simp
  | cons h rest ih =>
    intro hmem
    by_cases hh : h ∈ a
    · by_cases heq : h = s
      · subst heq
        simp [runChain, hh, hz]
      · have hsrest : s ∈ rest := by
          rcases List.mem_cons.mp hmem with h1 | h1
          · exact absurd h1.symm heq
          · exact h1
        have htw : (h :: rest).takeWhile (fun t => t != s) =
            h :: rest.takeWhile (fun t => t != s) := by
          simp [List.takeWhile_cons, heq]
        by_cases hz2 : (stageBody w c h).2 = 0
        · rw [htw]
          simpa [runChain, hh, hz2] using (ih hsrest).cons₂ h
        · rw [htw]
          simp [runChain, hh, hz2]
    · have hne : h ≠ s := fun he => hh (he ▸ hs)
      have hsrest : s ∈ rest := by
        rcases List.mem_cons.mp hmem with h1 | h1
        · exact absurd h1.symm hne
        · exact h1
      have htw : (h :: rest).takeWhile (fun t => t != s) =
          h :: rest.takeWhile (fun t => t != s) := by
        simp [List.takeWhile_cons, hne]
      rw [htw]
      simpa [runChain, hh] using (ih hsrest).cons h

theorem runChain_ok_executed (w : World) (c : Config) (a : List String) :
    ∀ L : List String, (runChain w c a L).outcome = Outcome.ok →
      (runChain w c a L).executed = L.filter (fun t => decide (t ∈ a)) := by
  intro L
  induction L with
  | nil => simp [runChain]
  | cons h rest ih =>
    intro hok
    by_cases hh : h ∈ a
    · by_cases hz : (stageBody w c h).2 = 0
      · simp [runChain, hh, hz] at hok ⊢
        exact ih hok
      · simp [runChain, hh, hz] at hok
    · simp [runChain, hh] at hok ⊢
      exact ih hok

theorem runChain_fail_stage (w : World) (c : Config) (a : List String) :
    ∀ L : List String, ∀ s k, (runChain w c a L).outcome = Outcome.stageFailure s k →
      s ∈ L ∧ s ∈ a ∧ k = (stageBody w c s).2 := by
  intro L
  induction L with
  | nil => simp [runChain]
  | cons h rest ih =>
    intro s k hfail
    by_cases hh : h ∈ a
    · by_cases hz : (stageBody w c h).2 = 0
      · simp [runChain, hh, hz] at hfail
        rcases ih s k hfail with ⟨h1, h2, h3⟩
        exact ⟨List.mem_cons_of_mem h h1, h2, h3⟩
      · simp [runChain, hh, hz] at hfail
        rcases hfail with ⟨rfl, rfl⟩
        exact ⟨List.mem_cons_self h rest, hh, rfl⟩
    · simp [runChain, hh] at hfail
      rcases ih s k hfail with ⟨h1, h2, h3⟩
      exact ⟨List.mem_cons_of_mem h h1, h2, h3⟩

theorem runChain_executed_events (w : World) (c : Config) (a : List String) :
    ∀ L : List String, ∀ s, s ∈ (runChain w c a L).executed →
      ∀ e ∈ (stageBody w c s).1, e ∈ (runChain w c a L).events := by
  intro L
  induction L with
  | nil => simp [runChain]
  | cons h rest ih =>
    intro s hmem e he
    by_cases hh : h ∈ a
    · by_cases hz : (stageBody w c h).2 = 0
      · simp [runChain, hh, hz] at hmem ⊢
        rcases hmem with rfl | hmem
        · exact Or.inl he
        · exact Or.inr (ih s hmem e he)
      · simp [runChain, hh, hz] at hmem ⊢
        subst hmem
        exact he
    · simp [runChain, hh] at hmem ⊢
      exact ih s hmem e he

theorem stageBody_not_setEnv (w : World) (c : Config) (s : String) :
    ∀ e ∈ (stageBody w c s).1, ∀ k v, e ≠ Event.setEnv k v := by
  intro e he k v
  unfold stageBody at he
  split_ifs at he <;> simp at he <;> rcases he with rfl | rfl <;> simp

theorem runChain_not_setEnv (w : World) (c : Config) (a : List String) :
    ∀ L : List String, ∀ e ∈ (runChain w c a L).events, ∀ k v, e ≠ Event.setEnv k v := by
  intro L
  induction L with
  | nil => simp [runChain]
  | cons h rest ih =>
    intro e he k v
    by_cases hh : h ∈ a
    · by_cases hz : (stageBody w c h).2 = 0
      · simp [runChain, hh, hz] at he
        rcases he with he | he
        · exact stageBody_not_setEnv w c h e he k v
        · exact ih e he k v
      · simp [runChain, hh, hz] at he
        exact stageBody_not_setEnv w c h e he k v
    · simp [runChain, hh] at he
      exact ih e he k v

theorem stageBody_exit_proc (w : World) (c : Config) :
    ∀ s ∈ procStages, (stageBody w c s).2 = w.exit s := by
  intro s hs
  have h5 : s = "basic_cleaning" ∨ s = "data_check" ∨ s = "data_split" ∨
      s = "train_random_forest" ∨ s = "test_regression_model" := by
    simpa [procStages] using hs
  rcases h5 with rfl | rfl | rfl | rfl | rfl <;> simp [stageBody]

theorem ifChain_nodup : ifChain.Nodup := by decide

theorem ifChain_takeWhile_indexOf :
    ∀ s ∈ ifChain, ∀ t ∈ (ifChain.takeWhile (fun x => x != s) ++ [s]),
      ifChain.indexOf t ≤ ifChain.indexOf s := by
  decide

theorem stageBody_steps_irrel (w : World) (c : Config) (s' : String) (s : String) :
    stageBody w { c with main := { c.main with steps := s' } } s = stageBody w c s := rfl

theorem runChain_agree (w : World) (c : Config) (s' : String) (a a' : List String) :
    ∀ L : List String, (∀ x ∈ L, (x ∈ a ↔ x ∈ a')) →
      runChain w c a L =
        runChain w { c with main := { c.main with steps := s' } } a' L := by
  intro L
  induction L with
  | nil => intro _; rfl
  | cons h rest ih =>
    intro hag
    have hh' := hag h (List.mem_cons_self h rest)
    have hrest : ∀ x ∈ rest, (x ∈ a ↔ x ∈ a') := fun x hx =>
      hag x (List.mem_cons_of_mem h hx)
    by_cases hh : h ∈ a
    · have hh2 : h ∈ a' := hh'.mp hh
      simp [runChain, hh, hh2, stageBody_steps_irrel, ih hrest]
    · have hh2 : h ∉ a' := fun hx => hh (hh'.mpr hx)
      simp only [runChain, hh, hh2, if_false]
      exact ih hrest

/-! Concrete configurations and worlds used to exercise the claims. -/

/-- A configuration with the repository's stock values. -/
def baseConfig : Config :=
  { main := { project_name := "nyc_airbnb", experiment_name := "development",
              steps := "all",
              components_repository := "https://github.com/udacity/components" },
    etl := { sample := "sample.csv", output_artifact := "clean_sample.csv",
             output_type := "clean_sample",
             output_description := "Data with outliers and null prices removed",
             min_price := Val.vint 10, max_price := Val.vint 350 },
    data_check := { kl_threshold := Val.vnum "0.2" },
    modeling := { test_size := Val.vnum "0.2", random_seed := Val.vint 42,
                  stratify_by := "neighbourhood_group", val_size := Val.vnum "0.2",
                  max_tfidf_features := Val.vint 5,
                  output_artifact := "random_forest_export",
                  random_forest := [("n_estimators", JVal.jint 100)] } }

/-- The stock configuration with a given steps directive. -/
def cfgWithSteps (s : String) : Config :=
  { baseConfig with main := { baseConfig.main with steps := s } }

/-- A world in which every external invocation succeeds. -/
def okWorld : World :=
  { cwd := ["home", "user", "proj", "outputs", "run1"],
    original_cwd := ["home", "user", "proj"],
    tmp_dir := ["tmp", "tmpw1ld0"],
    exit := fun _ => 0 }

/-- A world in which exactly the named stage's external invocation fails. -/
def failWorld (s : String) : World :=
  { okWorld with exit := fun t => if t = s then 1 else 0 }

/-! The claims. -/

/-- C1: when the steps directive is the literal "all", the active step set is
exactly the registry ["download", "basic_cleaning", "data_check",
"data_split", "train_random_forest"] in that order, which excludes
"test_regression_model"; and "test_regression_model" executes only when the
directive names it as one of its comma-separated tokens. -/
theorem C1_all_selects_registry_excluding_test :
    active_steps "all" =
      ["download", "basic_cleaning", "data_check", "data_split", "train_random_forest"] ∧
    ∀ (c : Config) (w : World), "test_regression_model" ∈ (go c w).executed →
      "test_regression_model" ∈ pySplitComma c.main.steps := by
  constructor
  · decide
  · intro c w h
    have hh : "test_regression_model" ∈ active_steps c.main.steps := by
      apply runChain_executed_active w c (active_steps c.main.steps) ifChain
      simpa [go] using h
    by_cases hall : c.main.steps = "all"
    · rw [hall] at hh
      simp [active_steps, _steps] at hh
    · simpa [active_steps, hall] using hh

/-- C1 witness: with the directive "test_regression_model" the stage executes
and is indeed named among the directive's comma-separated tokens. -/
theorem C1_witness :
    "test_regression_model" ∈
      pySplitComma (cfgWithSteps "test_regression_model").main.steps :=
  C1_all_selects_registry_excluding_test.2
    (cfgWithSteps "test_regression_model") okWorld (by decide)

/-- C2: if a stage of the active set whose block invokes an external process
reports a non-zero exit status, then nothing later in the chain executes, and
the temporary directory no longer exists after `go` returns. -/
theorem C2_failure_stops_chain_and_cleanup (c : Config) (w : World) (s : String)
    (hs : s ∈ active_steps c.main.steps) (hp : s ∈ procStages)
    (hx : w.exit s ≠ 0) :
    (∀ t ∈ (go c w).executed, ifChain.indexOf t ≤ ifChain.indexOf s) ∧
    (go c w).tmpExists = false := by
  have hzb : (stageBody w c s).2 ≠ 0 := by
    rw [stageBody_exit_proc w c s hp]
    exact hx
  have hsubchain : ∀ x ∈ procStages, x ∈ ifChain := by decide
  have hchain : s ∈ ifChain := hsubchain s hp
  have hsub := runChain_fail_stops w c (active_steps c.main.steps) s hs hzb ifChain hchain
  constructor
  · intro t ht
    have ht2 : t ∈ (runChain w c (active_steps c.main.steps) ifChain).executed := by
      simpa [go] using ht
    exact ifChain_takeWhile_indexOf s hchain t (hsub.subset ht2)
  · simp [go]

/-- C2 witness: with the directive "all" and a failing data_check process,
the executed stage basic_cleaning sits no later than data_check in the
chain, and the temporary directory is gone. -/
theorem C2_witness :
    ifChain.indexOf "basic_cleaning" ≤ ifChain.indexOf "data_check" ∧
    (go baseConfig (failWorld "data_check")).tmpExists = false :=
  ⟨(C2_failure_stops_chain_and_cleanup baseConfig (failWorld "data_check")
      "data_check" (by decide) (by decide) (by decide)).1 "basic_cleaning" (by decide),
   (C2_failure_stops_chain_and_cleanup baseConfig (failWorld "data_check")
      "data_check" (by decide) (by decide) (by decide)).2⟩

/-- C3 counterexample: with the directive "download,bogus", whose token
"bogus" names no stage, `go` does not fail at all — it returns normally —
and the stage named by the valid token still executes; the all-unknown
directive "bogus" likewise returns normally with no stage executed, instead
of raising. -/
theorem C3_counterexample :
    (go (cfgWithSteps "download,bogus") okWorld).outcome = Outcome.ok ∧
    (go (cfgWithSteps "download,bogus") okWorld).executed = ["download"] ∧
    (go (cfgWithSteps "bogus") okWorld).outcome = Outcome.ok ∧
    (go (cfgWithSteps "bogus") okWorld).executed = [] := by
  decide

/-- C3 amended: the orchestrator performs no token validation.  Unknown
tokens are silently ignored: on a normal return the executed stages are
exactly the chain entries whose names occur verbatim among the directive's
tokens; the only possible failure is the failure of a real chain stage that
the directive selected — never an unknown-token error; and unknown tokens
are inert — replacing the directive by any directive selecting the same
chain stages (for instance one with the unknown tokens dropped) leaves the
whole invocation result unchanged. -/
theorem C3_amended_unknown_tokens_ignored (c : Config) (w : World) :
    ((go c w).outcome = Outcome.ok →
      (go c w).executed =
        ifChain.filter (fun t => decide (t ∈ active_steps c.main.steps))) ∧
    (∀ s k, (go c w).outcome = Outcome.stageFailure s k →
      s ∈ ifChain ∧ s ∈ active_steps c.main.steps) ∧
    (∀ s', (∀ x ∈ ifChain, (x ∈ active_steps c.main.steps ↔ x ∈ active_steps s')) →
      go c w = go { c with main := { c.main with steps := s' } } w) := by
  refine ⟨?_, ?_, ?_⟩
  · intro hok
    have hok2 : (runChain w c (active_steps c.main.steps) ifChain).outcome = Outcome.ok := by
      simpa [go] using hok
    simpa [go] using runChain_ok_executed w c (active_steps c.main.steps) ifChain hok2
  · intro s k hf
    have hf2 : (runChain w c (active_steps c.main.steps) ifChain).outcome =
        Outcome.stageFailure s k := by
      simpa [go] using hf
    have h3 := runChain_fail_stage w c (active_steps c.main.steps) ifChain s k hf2
    exact ⟨h3.1, h3.2.1⟩
  · intro s' hag
    have hrc := runChain_agree w c s' (active_steps c.main.steps) (active_steps s')
      ifChain hag
    simp only [go]
    rw [hrc]

/-- C3 amended witness: at the directive "download,bogus" in a world where
everything succeeds, the executed stages are the chain filtered by the
directive's tokens, and dropping the unknown token "bogus" from the
directive leaves the invocation result unchanged. -/
theorem C3_amended_witness :
    (go (cfgWithSteps "download,bogus") okWorld).executed =
      ifChain.filter
        (fun t => decide (t ∈ active_steps (cfgWithSteps "download,bogus").main.steps)) ∧
    go (cfgWithSteps "download,bogus") okWorld =
      go { cfgWithSteps "download,bogus" with
             main := { (cfgWithSteps "download,bogus").main with steps := "download" } }
        okWorld :=
  ⟨(C3_amended_unknown_tokens_ignored (cfgWithSteps "download,bogus") okWorld).1 (by decide),
   (C3_amended_unknown_tokens_ignored (cfgWithSteps "download,bogus") okWorld).2.2
     "download" (by decide)⟩

/-- C4 (code-bug evidence): with the directive "train_random_forest" and
modeling.random_forest = ("n_estimators", 100), `go` writes the JSON file at
cwd/rf_config.json — the process working directory, because the code never
moves into the temporary directory it opened — passes that absolute path as
the value following "--rf_config", and the file is NOT inside the temporary
directory and still exists after the invocation returns. -/
theorem C4_rf_config_written_outside_workspace :
    Event.writeFile ["home", "user", "proj", "outputs", "run1", "rf_config.json"]
        [("n_estimators", JVal.jint 100)] ∈
      (go (cfgWithSteps "train_random_forest") okWorld).trace ∧
    ["--rf_config", "/home/user/proj/outputs/run1/rf_config.json"] <:+:
      train_random_forest_args (cfgWithSteps "train_random_forest")
        ["home", "user", "proj", "outputs", "run1", "rf_config.json"] ∧
    Event.runProc
        (train_random_forest_args (cfgWithSteps "train_random_forest")
          ["home", "user", "proj", "outputs", "run1", "rf_config.json"])
        ["home", "user", "proj", "src", "train_random_forest"] ∈
      (go (cfgWithSteps "train_random_forest") okWorld).trace ∧
    insideDir okWorld.tmp_dir
      ["home", "user", "proj", "outputs", "run1", "rf_config.json"] = false ∧
    (["home", "user", "proj", "outputs", "run1", "rf_config.json"],
      [("n_estimators", JVal.jint 100)]) ∈
      (go (cfgWithSteps "train_random_forest") okWorld).files ∧
    (go (cfgWithSteps "train_random_forest") okWorld).tmpExists = false := by
  decide

/-- C5: executed stages always appear in the canonical chain order, whatever
the token order of the directive; in particular the directive
"data_split,download" runs download before data_split. -/
theorem C5_canonical_order (c : Config) (w : World) :
    (go c w).executed.Sublist ifChain ∧
    (c.main.steps = "data_split,download" →
      (go c w).executed = ["download", "data_split"]) := by
  constructor
  · simpa [go] using runChain_executed_sublist w c (active_steps c.main.steps) ifChain
  · intro hsteps
    have ha : active_steps c.main.steps = ["data_split", "download"] := by
      rw [hsteps]
      decide
    by_cases hz : w.exit "data_split" = 0 <;>
      simp [go, ha, runChain, stageBody, ifChain, hz]

/-- C5 witness: the directive "data_split,download" yields the execution
order download, then data_split. -/
theorem C5_witness :
    (go (cfgWithSteps "data_split,download") okWorld).executed =
      ["download", "data_split"] :=
  (C5_canonical_order (cfgWithSteps "data_split,download") okWorld).2 (by decide)

/-- C6 counterexample: the directive "download, data_check" (space after the
comma) does not select data_check — tokens are not trimmed, so the token
" data_check" matches no stage and data_check never executes. -/
theorem C6_counterexample :
    active_steps "download, data_check" ≠ ["download", "data_check"] ∧
    "data_check" ∉ (go (cfgWithSteps "download, data_check") okWorld).executed := by
  decide

/-- C6 amended: for a directive other than "all" the active step set is the
comma-split token list with NO trimming; a directive such as
"download, data_check" therefore yields the tokens "download" and
" data_check", and only download executes. -/
theorem C6_amended_tokens_not_trimmed (c : Config) (w : World)
    (h : c.main.steps = "download, data_check") :
    active_steps c.main.steps = ["download", " data_check"] ∧
    (go c w).executed = ["download"] := by
  have ha : active_steps c.main.steps = ["download", " data_check"] := by
    rw [h]
    decide
  refine ⟨ha, ?_⟩
  simp [go, ha, runChain, stageBody, ifChain]

/-- C6 amended witness. -/
theorem C6_amended_witness :
    active_steps (cfgWithSteps "download, data_check").main.steps =
      ["download", " data_check"] ∧
    (go (cfgWithSteps "download, data_check") okWorld).executed = ["download"] :=
  C6_amended_tokens_not_trimmed (cfgWithSteps "download, data_check") okWorld (by decide)

/-- C7: with the directive "download,basic_cleaning", etl.sample =
"sample.csv", etl.min_price = 10 and etl.max_price = 1000, exactly the two
stages download and basic_cleaning run, in that order; download logs an
artifact named "sample.csv" of type "raw_data"; and basic_cleaning invokes
its external process with input artifact reference "sample.csv:latest" and
the stringified price bounds "10" and "1000". -/
theorem C7_download_then_cleaning (c : Config) (w : World)
    (hsteps : c.main.steps = "download,basic_cleaning")
    (hsample : c.etl.sample = "sample.csv")
    (hmin : c.etl.min_price = Val.vint 10)
    (hmax : c.etl.max_price = Val.vint 1000) :
    (go c w).executed = ["download", "basic_cleaning"] ∧
    Event.logArtifact "sample.csv" "raw_data" "Raw data from local file"
      (w.original_cwd ++ ["data", "sample.csv"]) ∈ (go c w).trace ∧
    Event.runProc (basic_cleaning_args c)
      (w.original_cwd ++ ["src", "basic_cleaning"]) ∈ (go c w).trace ∧
    basic_cleaning_args c =
      ["python", "run.py",
       "--input_artifact", "sample.csv:latest",
       "--output_artifact", c.etl.output_artifact,
       "--output_type", c.etl.output_type,
       "--output_description", c.etl.output_description,
       "--min_price", "10",
       "--max_price", "1000"] := by
  have ha : active_steps c.main.steps = ["download", "basic_cleaning"] := by
    rw [hsteps]
    decide
  have hargs : basic_cleaning_args c =
      ["python", "run.py",
       "--input_artifact", "sample.csv:latest",
       "--output_artifact", c.etl.output_artifact,
       "--output_type", c.etl.output_type,
       "--output_description", c.etl.output_description,
       "--min_price", "10",
       "--max_price", "1000"] := by
    simp [basic_cleaning_args, hmin, hmax, pyStr]
    refine ⟨?_, ?_⟩ <;> decide
  refine ⟨?_, ?_, ?_, hargs⟩ <;>
    by_cases hz : w.exit "basic_cleaning" = 0 <;>
      simp [go, ha, runChain, stageBody, ifChain, hz, hsample]

/-- C7 witness: the scenario instantiated at the stock configuration with
max_price raised to 1000. -/
theorem C7_witness :
    (go { cfgWithSteps "download,basic_cleaning" with
            etl := { baseConfig.etl with max_price := Val.vint 1000 } }
        okWorld).executed = ["download", "basic_cleaning"] :=
  (C7_download_then_cleaning
    { cfgWithSteps "download,basic_cleaning" with
        etl := { baseConfig.etl with max_price := Val.vint 1000 } }
    okWorld (by decide) (by decide) (by decide) (by decide)).1

/-- C8: `go` sets WANDB_PROJECT to main.project_name and WANDB_RUN_GROUP to
main.experiment_name as its first two actions, before anything else in the
trace, and no later event of the invocation modifies an environment
variable, so every stage execution observes the same project+group pair. -/
theorem C8_run_group_context_set_once (c : Config) (w : World) :
    (go c w).trace.take 2 =
      [Event.setEnv "WANDB_PROJECT" c.main.project_name,
       Event.setEnv "WANDB_RUN_GROUP" c.main.experiment_name] ∧
    ∀ e ∈ (go c w).trace.drop 2, ∀ k v, e ≠ Event.setEnv k v := by
  constructor
  · simp [go]
  · intro e he k v
    have h2 : e ∈ (runChain w c (active_steps c.main.steps) ifChain).events := by
      simpa [go] using he
    exact runChain_not_setEnv w c (active_steps c.main.steps) ifChain e h2 k v

/-- C8 witness: at the stock configuration the first two trace events are
the two environment assignments, and the first stage event — the wandb run
start sitting in the rest of the trace — is not an environment mutation. -/
theorem C8_witness :
    (go baseConfig okWorld).trace.take 2 =
      [Event.setEnv "WANDB_PROJECT" "nyc_airbnb",
       Event.setEnv "WANDB_RUN_GROUP" "development"] ∧
    Event.wandbInit "download_data" ≠ Event.setEnv "WANDB_PROJECT" "other" :=
  ⟨(C8_run_group_context_set_once baseConfig okWorld).1,
   (C8_run_group_context_set_once baseConfig okWorld).2
     (Event.wandbInit "download_data") (by decide) "WANDB_PROJECT" "other"⟩

/-- The name part of a "name:tag" artifact reference. -/
def refNamePart (r : String) : String :=
  String.mk ((splitOnChar (Char.ofNat 58) r.data).headD [])

/-- A configuration whose etl.sample differs from "sample.csv". -/
def cfgOtherSample : Config :=
  { cfgWithSteps "download,basic_cleaning" with
      etl := { baseConfig.etl with sample := "other.csv" } }

/-- C9: basic_cleaning always receives the literal "sample.csv:latest" as
the value of --input_artifact, whatever etl.sample is; download, by
contrast, logs its artifact under the name etl.sample — so whenever
etl.sample differs from "sample.csv", the published name and the name part
of the resolved input reference differ. -/
theorem C9_input_artifact_literal (c : Config) (w : World) :
    (basic_cleaning_args c)[2]? = some "--input_artifact" ∧
    (basic_cleaning_args c)[3]? = some "sample.csv:latest" ∧
    ("basic_cleaning" ∈ (go c w).executed →
      Event.runProc (basic_cleaning_args c)
        (w.original_cwd ++ ["src", "basic_cleaning"]) ∈ (go c w).trace) ∧
    ("download" ∈ (go c w).executed →
      Event.logArtifact c.etl.sample "raw_data" "Raw data from local file"
        (w.original_cwd ++ ["data", c.etl.sample]) ∈ (go c w).trace) ∧
    (c.etl.sample ≠ "sample.csv" →
      c.etl.sample ≠ refNamePart "sample.csv:latest") := by
  have htr : (go c w).trace =
      [Event.setEnv "WANDB_PROJECT" c.main.project_name,
       Event.setEnv "WANDB_RUN_GROUP" c.main.experiment_name] ++
      (runChain w c (active_steps c.main.steps) ifChain).events := by
    simp [go]
  refine ⟨by simp [basic_cleaning_args], by simp [basic_cleaning_args], ?_, ?_, ?_⟩
  · intro h
    have h2 : "basic_cleaning" ∈
        (runChain w c (active_steps c.main.steps) ifChain).executed := by
      simpa [go] using h
    have h3 := runChain_executed_events w c (active_steps c.main.steps) ifChain
      "basic_cleaning" h2
      (Event.runProc (basic_cleaning_args c) (w.original_cwd ++ ["src", "basic_cleaning"]))
      (by simp [stageBody])
    rw [htr]
    exact List.mem_append_right _ h3
  · intro h
    have h2 : "download" ∈
        (runChain w c (active_steps c.main.steps) ifChain).executed := by
      simpa [go] using h
    have h3 := runChain_executed_events w c (active_steps c.main.steps) ifChain
      "download" h2
      (Event.logArtifact c.etl.sample "raw_data" "Raw data from local file"
        (w.original_cwd ++ ["data", c.etl.sample]))
      (by simp [stageBody])
    rw [htr]
    exact List.mem_append_right _ h3
  · intro h
    have hn : refNamePart "sample.csv:latest" = "sample.csv" := by decide
    rw [hn]
    exact h

/-- C9 witness: with etl.sample = "other.csv" the cleaning process still gets
"sample.csv:latest", and the published name differs from the reference's
name part. -/
theorem C9_witness :
    Event.runProc (basic_cleaning_args cfgOtherSample)
      (okWorld.original_cwd ++ ["src", "basic_cleaning"]) ∈
      (go cfgOtherSample okWorld).trace ∧
    cfgOtherSample.etl.sample ≠ refNamePart "sample.csv:latest" :=
  ⟨(C9_input_artifact_literal cfgOtherSample okWorld).2.2.1 (by decide),
   (C9_input_artifact_literal cfgOtherSample okWorld).2.2.2.2 (by decide)⟩

/-- C10: every stage executes at most once per invocation; in particular a
directive with duplicate tokens such as "download,download" runs download
a single time. -/
theorem C10_each_stage_at_most_once (c : Config) (w : World) :
    (∀ s, (go c w).executed.count s ≤ 1) ∧
    (c.main.steps = "download,download" → (go c w).executed = ["download"]) := by
  constructor
  · intro s
    have hsub : (go c w).executed.Sublist ifChain := by
      simpa [go] using runChain_executed_sublist w c (active_steps c.main.steps) ifChain
    have hnd : (go c w).executed.Nodup := List.Nodup.sublist hsub ifChain_nodup
    exact List.nodup_iff_count_le_one.mp hnd s
  · intro h
    have ha : active_steps c.main.steps = ["download", "download"] := by
      rw [h]
      decide
    simp [go, ha, runChain, stageBody, ifChain]

/-- C10 witness: the duplicate directive "download,download" executes
download exactly once. -/
theorem C10_witness :
    (go (cfgWithSteps "download,download") okWorld).executed = ["download"] :=
  (C10_each_stage_at_most_once (cfgWithSteps "download,download") okWorld).2 (by decide)
